import Mathlib

/-!
Verification development for the fizz event-driven driver core ("Fizz base")
and its object `Factory`.

Part 1 embeds `Factory` (src/fizz/protocol/Factory.h): the cipher-suite /
named-group dispatch of `makeKeyDeriver`, `makeAead` and `makeKeyExchange`.

Part 2 embeds the event-driven driver (`FizzBase`).  The driver implementation
itself is not part of the sources at hand (only its unit tests,
src/fizz/protocol/test/FizzBaseTest.cpp, are); the driver is therefore
modelled from the specification, with the test corpus as the authoritative
behavioral contract wherever the specification defers to it.
-/

namespace Fizz

/-! ### Part 1: Factory (src/fizz/protocol/Factory.h) -/

/-- TLS cipher suites as used by `Factory` (fizz/record/Types.h is not in the
sources; the enum is a `uint16` C++ enum class, so values other than the named
ones are representable — `unknownSuite` stands for any such value). -/
inductive CipherSuite
  | TLS_AES_128_GCM_SHA256
  | TLS_AES_256_GCM_SHA384
  | TLS_CHACHA20_POLY1305_SHA256
  | TLS_AES_128_OCB_SHA256_EXPERIMENTAL
  | unknownSuite (code : Nat)
deriving DecidableEq

/-- TLS named groups as used by `Factory`; `unknownGroup` stands for any value
other than the named ones. -/
inductive NamedGroup
  | secp256r1
  | secp384r1
  | secp521r1
  | x25519
  | unknownGroup (code : Nat)
deriving DecidableEq

/-- Hash algorithms selected by `Factory::makeKeyDeriver`. -/
inductive HashT
  | Sha256
  | Sha384
deriving DecidableEq

/-- The (always non-null) object produced by `Factory::makeKeyDeriver`:
`KeyDerivationImpl<Hash>` with the chosen hash. -/
inductive KeyDeriverObj
  | keyDerivationImpl (h : HashT)
deriving DecidableEq

/-- The (always non-null) object produced by `Factory::makeAead`. -/
inductive AeadObj
  | chacha20Poly1305
  | aesgcm128
  | aesgcm256
  | aesocb128
deriving DecidableEq

/-- The (always non-null) object produced by `Factory::makeKeyExchange`. -/
inductive KexObj
  | opensslP256
  | opensslP384
  | opensslP521
  | x25519kx
deriving DecidableEq

/-- Interpretation: `Except.ok` means the C++ function returned (a `std::make_unique` result,
hence a non-null pointer); `Except.error msg` means it threw
`std::runtime_error(msg)`. -/
def isOk {α : Type} : Except String α → Bool
  | .ok _ => true
  | .error _ => false

/-- Factory::makeKeyDeriver, Factory.h lines 62-74: the first three suites
fall through to `KeyDerivationImpl<Sha256>`, `TLS_AES_256_GCM_SHA384` selects
`KeyDerivationImpl<Sha384>`, anything else throws "ks: not implemented". -/
def makeKeyDeriver : CipherSuite → Except String KeyDeriverObj
  | .TLS_CHACHA20_POLY1305_SHA256 => .ok (.keyDerivationImpl .Sha256)
  | .TLS_AES_128_GCM_SHA256 => .ok (.keyDerivationImpl .Sha256)
  | .TLS_AES_128_OCB_SHA256_EXPERIMENTAL => .ok (.keyDerivationImpl .Sha256)
  | .TLS_AES_256_GCM_SHA384 => .ok (.keyDerivationImpl .Sha384)
  | _ => .error "ks: not implemented"

/-- Factory::makeKeyExchange, Factory.h lines 90-103. -/
def makeKeyExchange : NamedGroup → Except String KexObj
  | .secp256r1 => .ok .opensslP256
  | .secp384r1 => .ok .opensslP384
  | .secp521r1 => .ok .opensslP521
  | .x25519 => .ok .x25519kx
  | _ => .error "ke: not implemented"

/-- Factory::makeAead, Factory.h lines 105-118. -/
def makeAead : CipherSuite → Except String AeadObj
  | .TLS_CHACHA20_POLY1305_SHA256 => .ok .chacha20Poly1305
  | .TLS_AES_128_GCM_SHA256 => .ok .aesgcm128
  | .TLS_AES_256_GCM_SHA384 => .ok .aesgcm256
  | .TLS_AES_128_OCB_SHA256_EXPERIMENTAL => .ok .aesocb128
  | _ => .error "aead: not implemented"

/-- The set of suites the claim says are supported, written from the claim's
own enumeration (to be compared against the source switch). -/
def claimedSupportedSuite : CipherSuite → Bool
  | .TLS_CHACHA20_POLY1305_SHA256 => true
  | .TLS_AES_128_GCM_SHA256 => true
  | .TLS_AES_128_OCB_SHA256_EXPERIMENTAL => true
  | .TLS_AES_256_GCM_SHA384 => true
  | _ => false

/-- The set of groups the claim says are supported, written from the claim's
own enumeration. -/
def claimedSupportedGroup : NamedGroup → Bool
  | .secp256r1 => true
  | .secp384r1 => true
  | .secp521r1 => true
  | .x25519 => true
  | _ => false

/-! ### Part 2: the event-driven driver (`FizzBase`)

Modelled from the spec: the driver implementation (fizz/protocol/FizzBase.h
and its -inl) is not among the sources; sections 3-5 and 7 of the spec
describe it, and src/fizz/protocol/test/FizzBaseTest.cpp pins its observable
behavior.  Where the two disagree (destruction from inside callbacks), the
spec itself names the tests as the authoritative behavioral contract and its
section 9 design note describes the delayed-destruction pattern the tests
exercise; the model follows the tests there. -/

/-- Modelled from the spec: the `state()` projection of the opaque state
handle (`NotError | Closed | Error`), mirroring `StateEnum` of the test
fixture. -/
inductive StateEnum
  | notError
  | closed
  | error
deriving DecidableEq

/-- Modelled from the spec: the queued event variants (section 3).
`TransportData` is not queued: per section 4.2 it is flag-driven
(`wait_for_data`), so it is not an `Event` constructor.  Write payloads are
identified by a numeric label; the optional `Nat` is a write-callback
identity. -/
inductive Event
  | appWrite (label : Nat) (cb : Option Nat)
  | earlyAppWrite (label : Nat) (cb : Option Nat)
  | writeNewSessionTicket (label : Nat)
  | appClose
  | appCloseImmediate
deriving DecidableEq

/-- The opaque actions of the test state machine (`A1`, `A2`). -/
inductive Action
  | a1
  | a2
deriving DecidableEq

/-- The state-machine entry points, one per event variant plus
`process_socket_data` for transport data (section 4.2, entry-point selection
is mechanical). -/
inductive EntryPoint
  | processSocketData
  | processAppWrite (label : Nat)
  | processEarlyAppWrite (label : Nat)
  | processWriteNewSessionTicket (label : Nat)
  | processAppClose
  | processAppCloseImmediate
deriving DecidableEq

/-- Observable trace events of a run: state-machine invocations, visitor
invocations, write-error callbacks (`write_err(bytesWritten, reason)`), and
probes of `action_processing()` made from inside a callback. -/
inductive TraceEv
  | smCall (ep : EntryPoint)
  | visit (a : Action)
  | writeErr (cb : Nat) (bytesWritten : Nat) (reason : Nat)
  | observedActionProcessing (b : Bool)
deriving DecidableEq

/-- Modelled from the spec: the driver calls a visitor or state-machine
callback may re-enter the driver with (section 4.1 push operations,
`wait_for_data`, `move_to_error_state`), mutate the opaque state as a
state-machine action would, request destruction, or probe
`action_processing()`. -/
inductive DriverCmd
  | pushEvent (e : Event)
  | newTransportData
  | waitForData
  | moveToErrorState (reason : Nat)
  | setState (s : StateEnum)
  | destroy
  | observeActionProcessing
deriving DecidableEq

/-- One canned state-machine response, mirroring a gmock `WillOnce`: the
commands the mock performs while the call is in flight, and the resulting
batch — `some batch` for a synchronously resolved batch, `none` for a
deferred batch (to be resolved later by `TopOp.resolvePromise`). -/
structure SMResponse where
  cmds : List DriverCmd
  batch : Option (List Action)

/-- The environment: canned state-machine responses indexed by the number of
state-machine calls made so far, and canned visitor behaviors indexed by the
number of visits made so far (mirroring gmock sequences). -/
structure Env where
  smResp : Nat → SMResponse
  visResp : Nat → List DriverCmd

/-- Modelled from the spec: the driver state (sections 3-4).
`queue` is the FIFO event queue; `smState` the `state()` projection of the
opaque state handle; `waitForData` the quiescent-until-new-transport-data
flag (initially true); `actionGuard` the `actionProcessing` flag (section
4.2); `inPPE` the reentrancy latch of the dispatch loop; `externalError` the
driver-owned terminal flag set by `move_to_error_state` with its stored
`errorReason`; `destroyRequested` the delayed-destruction flag; `smCalls` and
`visits` count state-machine calls and visitor invocations (indexing the
environment). -/
structure Driver where
  queue : List Event
  smState : StateEnum
  waitForData : Bool
  actionGuard : Bool
  inPPE : Bool
  externalError : Bool
  errorReason : Option Nat
  destroyRequested : Bool
  smCalls : Nat
  visits : Nat
deriving DecidableEq

/-- The freshly constructed driver. -/
def init : Driver :=
  { queue := [], smState := .notError, waitForData := true,
    actionGuard := false, inPPE := false, externalError := false,
    errorReason := none, destroyRequested := false, smCalls := 0, visits := 0 }

/-- Observer `in_error_state()`: the opaque state projects to `Error` (section 4.4). -/
def inErrorState (d : Driver) : Bool :=
  match d.smState with
  | .error => true
  | _ => false

/-- Observer `in_terminal_state()`: the explicit terminal flag has been set, or the
opaque state is in error (section 4.4; once true, the dispatcher invokes no
further state-machine entry point). -/
def inTerminalState (d : Driver) : Bool :=
  inErrorState d || d.externalError

/-- Observer `action_processing()` (section 4.2). -/
def actionProcessing (d : Driver) : Bool :=
  d.actionGuard

/-- With delayed destruction, the driver is actually destroyed once
destruction has been requested and no guard (neither an in-flight action
batch nor a running dispatch loop) keeps it alive. -/
def destroyed (d : Driver) : Bool :=
  d.destroyRequested && !d.actionGuard && !d.inPPE

/-- The stored terminal reason (0 if none was stored). -/
def reasonOf (d : Driver) : Nat :=
  d.errorReason.getD 0

/-- The entry point corresponding to a queued event (section 4.2). -/
def entryFor : Event → EntryPoint
  | .appWrite l _ => .processAppWrite l
  | .earlyAppWrite l _ => .processEarlyAppWrite l
  | .writeNewSessionTicket l => .processWriteNewSessionTicket l
  | .appClose => .processAppClose
  | .appCloseImmediate => .processAppCloseImmediate

/-- Modelled from the spec: the terminal-state handler's treatment of one
queued event (section 4.5): a write event carrying a callback gets exactly
one `write_err(0, reason)`; every other event is discarded silently. -/
def failEvent (reason : Nat) : Event → List TraceEv
  | .appWrite _ (some cb) => [.writeErr cb 0 reason]
  | .earlyAppWrite _ (some cb) => [.writeErr cb 0 reason]
  | _ => []

/-- The trace emitted by walking the whole queue in order under the
terminal-state handler (section 4.5 step 2). -/
def drainTrace (reason : Nat) (q : List Event) : List TraceEv :=
  q.flatMap (failEvent reason)

/-- The unit of work the interpreter is currently executing: the dispatch
loop entry (`pump` = `processPendingEvents`), the loop body, a state-machine
invocation, the visitation of a (rest of a) batch, and callback command
processing. -/
inductive Job
  | pump
  | loop
  | dispatch (ep : EntryPoint)
  | actions (batch : List Action)
  | cmds (cs : List DriverCmd)
  | cmd (c : DriverCmd)

/-- Modelled from the spec: the driver interpreter (sections 4.2-4.5), as a
fuel-indexed evaluator; `none` means the fuel ran out (never the driver's own
divergence).
* `pump`: re-entrant calls return immediately (`inPPE`); otherwise run the
  dispatch loop and, when it stops with the terminal flag set and no batch in
  flight, run the terminal-state handler: fail every queued write with the
  stored reason and clear the queue (section 4.5).
* `loop`: stop while a batch is in flight or a terminal transition has been
  observed; otherwise transport data has priority whenever `wait_for_data`
  has not been requested, then the queue head, else stop (section 4.2).
* `dispatch`: sets the `actionProcessing` guard (already set by `loop`),
  consumes the next canned state-machine response, performs the commands the
  mock makes during the call, and either visits a synchronous batch or — for
  a deferred batch — leaves the guard up until resolution (section 5).
* `actions`: visit each action in order; after the last, drop the guard and
  re-enter the pump (section 4.3).  Visitor commands run under the guard, so
  re-entrant pushes only enqueue.
* `cmd`: the driver push API; pushes append and poke the pump, `waitForData`
  and `setState` and `destroy` only record, `moveToErrorState` sets the
  terminal flag, stores the first reason, and pokes the pump. -/
def exec : Nat → Env → Driver → Job → Option (Driver × List TraceEv)
  | 0, _, _, _ => none
  | fuel + 1, env, d, .pump =>
    if d.inPPE then some (d, [])
    else
      match exec fuel env { d with inPPE := true } .loop with
      | none => none
      | some (d1, t) =>
        let d2 := { d1 with inPPE := false }
        if d2.externalError && !d2.actionGuard then
          some ({ d2 with queue := [] }, t ++ drainTrace (reasonOf d2) d2.queue)
        else
          some (d2, t)
  | fuel + 1, env, d, .loop =>
    if d.actionGuard || inTerminalState d then some (d, [])
    else if !d.waitForData then
      match exec fuel env { d with actionGuard := true } (.dispatch .processSocketData) with
      | none => none
      | some (d1, t1) =>
        match exec fuel env d1 .loop with
        | none => none
        | some (d2, t2) => some (d2, t1 ++ t2)
    else
      match d.queue with
      | [] => some (d, [])
      | e :: rest =>
        match exec fuel env { d with queue := rest, actionGuard := true } (.dispatch (entryFor e)) with
        | none => none
        | some (d1, t1) =>
          match exec fuel env d1 .loop with
          | none => none
          | some (d2, t2) => some (d2, t1 ++ t2)
  | fuel + 1, env, d, .dispatch ep =>
    let r := env.smResp d.smCalls
    match exec fuel env { d with smCalls := d.smCalls + 1 } (.cmds r.cmds) with
    | none => none
    | some (d1, t1) =>
      match r.batch with
      | some batch =>
        match exec fuel env d1 (.actions batch) with
        | none => none
        | some (d2, t2) => some (d2, .smCall ep :: (t1 ++ t2))
      | none => some (d1, .smCall ep :: t1)
  | fuel + 1, env, d, .actions [] =>
    exec fuel env { d with actionGuard := false } .pump
  | fuel + 1, env, d, .actions (a :: rest) =>
    match exec fuel env { d with visits := d.visits + 1 } (.cmds (env.visResp d.visits)) with
    | none => none
    | some (d1, t1) =>
      match exec fuel env d1 (.actions rest) with
      | none => none
      | some (d2, t2) => some (d2, .visit a :: (t1 ++ t2))
  | _ + 1, _, d, .cmds [] => some (d, [])
  | fuel + 1, env, d, .cmds (c :: rest) =>
    match exec fuel env d (.cmd c) with
    | none => none
    | some (d1, t1) =>
      match exec fuel env d1 (.cmds rest) with
      | none => none
      | some (d2, t2) => some (d2, t1 ++ t2)
  | fuel + 1, env, d, .cmd (.pushEvent e) =>
    exec fuel env { d with queue := d.queue ++ [e] } .pump
  | fuel + 1, env, d, .cmd .newTransportData =>
    exec fuel env { d with waitForData := false } .pump
  | _ + 1, _, d, .cmd .waitForData => some ({ d with waitForData := true }, [])
  | fuel + 1, env, d, .cmd (.moveToErrorState r) =>
    exec fuel env
      { d with externalError := true, errorReason := some (d.errorReason.getD r) } .pump
  | _ + 1, _, d, .cmd (.setState s) => some ({ d with smState := s }, [])
  | _ + 1, _, d, .cmd .destroy => some ({ d with destroyRequested := true }, [])
  | _ + 1, _, d, .cmd .observeActionProcessing =>
    some (d, [.observedActionProcessing d.actionGuard])

/-- The public operations a test scenario performs on the driver from the
top level: the push API, destruction, and the resolution of a deferred
batch. -/
inductive TopOp
  | appWrite (label : Nat) (cb : Option Nat)
  | earlyAppWrite (label : Nat) (cb : Option Nat)
  | writeNewSessionTicket (label : Nat)
  | appClose
  | appCloseImmediate
  | newTransportData
  | destroy
  | resolvePromise (batch : List Action)
deriving DecidableEq

/-- The queued event a push operation appends, if it is a queue push. -/
def pushedEvent : TopOp → Option Event
  | .appWrite l cb => some (.appWrite l cb)
  | .earlyAppWrite l cb => some (.earlyAppWrite l cb)
  | .writeNewSessionTicket l => some (.writeNewSessionTicket l)
  | .appClose => some .appClose
  | .appCloseImmediate => some .appCloseImmediate
  | _ => none

/-- The operations that are driver pushes (they queue or flag an event; they
are not `destroy` and not the resolution of a deferred batch). -/
def isPushOp : TopOp → Bool
  | .appWrite _ _ => true
  | .earlyAppWrite _ _ => true
  | .writeNewSessionTicket _ => true
  | .appClose => true
  | .appCloseImmediate => true
  | .newTransportData => true
  | _ => false

/-- Modelled from the spec: one top-level operation.  Operations on an
actually destroyed driver are no-ops (a deferred batch targeting a destroyed
driver silently vanishes; nothing else can reach it).  While guards are held,
destruction is only requested (delayed destruction, section 9). -/
def runOp (fuel : Nat) (env : Env) (d : Driver) : TopOp → Option (Driver × List TraceEv)
  | .appWrite l cb =>
    if destroyed d then some (d, [])
    else exec fuel env d (.cmd (.pushEvent (.appWrite l cb)))
  | .earlyAppWrite l cb =>
    if destroyed d then some (d, [])
    else exec fuel env d (.cmd (.pushEvent (.earlyAppWrite l cb)))
  | .writeNewSessionTicket l =>
    if destroyed d then some (d, [])
    else exec fuel env d (.cmd (.pushEvent (.writeNewSessionTicket l)))
  | .appClose =>
    if destroyed d then some (d, [])
    else exec fuel env d (.cmd (.pushEvent .appClose))
  | .appCloseImmediate =>
    if destroyed d then some (d, [])
    else exec fuel env d (.cmd (.pushEvent .appCloseImmediate))
  | .newTransportData =>
    if destroyed d then some (d, [])
    else exec fuel env d (.cmd .newTransportData)
  | .destroy => some ({ d with destroyRequested := true }, [])
  | .resolvePromise batch =>
    if destroyed d then some (d, [])
    else exec fuel env d (.actions batch)

/-- A top-level scenario: run the operations in order, concatenating their
traces. -/
def runOps (fuel : Nat) (env : Env) : Driver → List TopOp → Option (Driver × List TraceEv)
  | d, [] => some (d, [])
  | d, op :: ops =>
    match runOp fuel env d op with
    | none => none
    | some (d1, t1) =>
      match runOps fuel env d1 ops with
      | none => none
      | some (d2, t2) => some (d2, t1 ++ t2)

/-- Canned state-machine responses from a list; past the end of the list the
mock returns an empty synchronous batch and performs nothing. -/
def smOf (rs : List SMResponse) (i : Nat) : SMResponse :=
  rs.getD i ⟨[], some []⟩

/-- Canned visitor behaviors from a list; past the end the visitor performs
nothing. -/
def visOf (vs : List (List DriverCmd)) (i : Nat) : List DriverCmd :=
  vs.getD i []

/-- Trace classification: is the event a state-machine invocation? -/
def isSmCall : TraceEv → Bool
  | .smCall _ => true
  | _ => false

/-- Trace classification: is the event a visitor invocation? -/
def isVisit : TraceEv → Bool
  | .visit _ => true
  | _ => false

/-- No state-machine entry point occurs in the trace. -/
def noSmCall (t : List TraceEv) : Bool :=
  t.all fun ev => !isSmCall ev

/-- Does the queued event carry this write callback? -/
def eventHasCallback (cb : Nat) : Event → Bool
  | .appWrite _ (some c) => c == cb
  | .earlyAppWrite _ (some c) => c == cb
  | _ => false

end Fizz

namespace Fizz

/-! ### Environments for the concrete test scenarios (FizzBaseTest.cpp)

Write labels: `write1` is 1, `write2` is 2, and so on.  Callback identities:
the early-write callback is 0, the plain write callback is 1 (other numbers
where noted).  Reasons: "unit test" is 7, "Transport is not good" is 8. -/

/-- The environment in which every state-machine call returns an empty
synchronous batch and performs nothing, and every visitor does nothing. -/
def envAllEmpty : Env := ⟨fun _ => ⟨[], some []⟩, fun _ => []⟩

/-- TestReadSingle: one `TransportData`, batch `[A1]`, the `A1` visitor calls
`wait_for_data()`. -/
def env9 : Env := ⟨smOf [⟨[], some [.a1]⟩], visOf [[.waitForData]]⟩

/-- TestErrorPendingEvents: `write1` yields `[A1]`; its visitor pushes
`write2`, an early write with callback 0, `write3` with callback 1, `write4`,
and `app_close`; processing `write2` calls `move_to_error_state` and returns
an empty batch. -/
def envC1 : Env :=
  ⟨smOf [⟨[], some [.a1]⟩, ⟨[.moveToErrorState 7], some []⟩],
   visOf [[.pushEvent (.appWrite 2 none), .pushEvent (.earlyAppWrite 5 (some 0)),
           .pushEvent (.appWrite 3 (some 1)), .pushEvent (.appWrite 4 none),
           .pushEvent .appClose]]⟩

/-- TestWriteInCallback: `write1` yields `[A1]` whose visitor pushes `write2`
and `write3`; `write2` yields `[A2]` whose visitor pushes `write4`; `write3`
and `write4` yield empty batches. -/
def envC2 : Env :=
  ⟨smOf [⟨[], some [.a1]⟩, ⟨[], some [.a2]⟩, ⟨[], some []⟩, ⟨[], some []⟩],
   visOf [[.pushEvent (.appWrite 2 none), .pushEvent (.appWrite 3 none)],
          [.pushEvent (.appWrite 4 none)]]⟩

/-- TestMoveToErrorStateOnVisit, enriched with a pending write so the
terminal-state handler is observable: the batch is `[A1, A2]`, and the `A1`
visitor pushes a write carrying callback 4 and then calls
`move_to_error_state`. -/
def envC3 : Env :=
  ⟨smOf [⟨[], some [.a1, .a2]⟩],
   visOf [[.pushEvent (.appWrite 2 (some 4)), .moveToErrorState 8], []]⟩

/-- TestDeleteInCallback: transport data yields `[A1]` whose visitor destroys
the driver; the next `process_socket_data` yields `[A2]` whose visitor calls
`wait_for_data()`. -/
def envC4a : Env :=
  ⟨smOf [⟨[], some [.a1]⟩, ⟨[], some [.a2]⟩], visOf [[.destroy], [.waitForData]]⟩

/-- TestAsyncActionDelete: `write1` returns a deferred batch; `write2` is
pushed and the driver destroyed before the batch resolves with `[]`. -/
def envC4b : Env := ⟨smOf [⟨[], none⟩, ⟨[], some []⟩], visOf []⟩

/-- TestActionProcessing: `process_app_close` probes `action_processing()`
from inside the call and returns an empty synchronous batch. -/
def envC5a : Env := ⟨smOf [⟨[.observeActionProcessing], some []⟩], visOf []⟩

/-- TestActionProcessingAsync: `process_app_close` probes
`action_processing()` and returns a deferred batch. -/
def envC5b : Env := ⟨smOf [⟨[.observeActionProcessing], none⟩], visOf []⟩

/-- TestAsyncAction (with a nonempty deferred batch to witness full
visitation): `write1` returns a deferred batch, later resolved with `[A1]`;
`write2` returns an empty batch. -/
def envC6 : Env := ⟨smOf [⟨[], none⟩, ⟨[], some []⟩], visOf [[]]⟩

/-- TestStopOnError: transport data yields `[A1]` whose visitor mutates the
opaque state to `Error`. -/
def envC7a : Env := ⟨smOf [⟨[], some [.a1]⟩], visOf [[.setState .error]]⟩

/-- TestActionProcessedAfterError: `process_socket_data` mutates the opaque
state to `Error` and still returns `[A1, A2]`. -/
def envC7b : Env := ⟨smOf [⟨[.setState .error], some [.a1, .a2]⟩], visOf []⟩

/-- TestReadNoActions: an empty batch for transport data, then `[A1]` whose
visitor calls `wait_for_data()`. -/
def envC8c : Env := ⟨smOf [⟨[], some []⟩, ⟨[], some [.a1]⟩], visOf [[.waitForData]]⟩

/-- TestManyActions, generalized: the first `n - 1` `process_socket_data`
calls perform nothing and return empty batches; from the `n`-th on the mock
calls `wait_for_data()` and returns an empty batch. -/
def envMany (n : Nat) : Env :=
  ⟨fun i => if i + 1 < n then ⟨[], some []⟩ else ⟨[.waitForData], some []⟩,
   fun _ => []⟩

/-- The top-level push operation corresponding to a queued event. -/
def pushOpOf : Event → TopOp
  | .appWrite l cb => .appWrite l cb
  | .earlyAppWrite l cb => .earlyAppWrite l cb
  | .writeNewSessionTicket l => .writeNewSessionTicket l
  | .appClose => .appClose
  | .appCloseImmediate => .appCloseImmediate

/-- A quiescent driver: empty queue, no error, waiting for data, no batch in
flight, with given call and visit counters. -/
def quiet (c v : Nat) : Driver :=
  { queue := [], smState := .notError, waitForData := true,
    actionGuard := false, inPPE := false, externalError := false,
    errorReason := none, destroyRequested := false, smCalls := c, visits := v }

/-! ### Infrastructure lemmas -/

/-- While a batch is in flight (`actionProcessing` up), re-entering the
dispatch loop does nothing: no event is dispatched and no trace is
produced. -/
theorem pump_guard {fuel : Nat} {env : Env} {d : Driver} {r : Driver × List TraceEv}
    (hg : d.actionGuard = true) (hex : exec fuel env d .pump = some r) :
    r = (d, []) ∨ r = ({ d with inPPE := false }, []) := by
  rcases fuel with _ | g
  · simp [exec] at hex
  · simp only [exec] at hex
    by_cases hip : d.inPPE
    · simp [hip] at hex
      left; exact hex.symm
    · simp [hip] at hex
      rcases g with _ | g'
      · simp [exec] at hex
      · simp only [exec] at hex
        simp [hg, inTerminalState] at hex
        right
        subst hex
        simp [hg]

/-- A single re-entrant command issued while a batch is in flight preserves
the in-flight flag and neither visits an action nor invokes a state-machine
entry point. -/
theorem cmd_guard {fuel : Nat} {env : Env} {c : DriverCmd} {d d' : Driver} {t : List TraceEv}
    (hg : d.actionGuard = true) (hex : exec fuel env d (.cmd c) = some (d', t)) :
    d'.actionGuard = true ∧ t.filter isVisit = [] ∧ t.filter isSmCall = [] := by
  rcases fuel with _ | g
  · simp [exec] at hex
  · cases c with
    | pushEvent e =>
      simp only [exec] at hex
      rcases pump_guard (d := { d with queue := d.queue ++ [e] }) hg hex with h | h <;>
        (rw [Prod.ext_iff] at h; simp_all)
    | newTransportData =>
      simp only [exec] at hex
      rcases pump_guard (d := { d with waitForData := false }) hg hex with h | h <;>
        (rw [Prod.ext_iff] at h; simp_all)
    | moveToErrorState r =>
      simp only [exec] at hex
      rcases pump_guard
          (d := { d with externalError := true, errorReason := some (d.errorReason.getD r) })
          hg hex with h | h <;>
        (rw [Prod.ext_iff] at h; simp_all)
    | waitForData =>
      simp only [exec, Option.some.injEq, Prod.mk.injEq] at hex
      obtain ⟨h1, h2⟩ := hex
      subst h1; subst h2
      exact ⟨hg, rfl, rfl⟩
    | setState s =>
      simp only [exec, Option.some.injEq, Prod.mk.injEq] at hex
      obtain ⟨h1, h2⟩ := hex
      subst h1; subst h2
      exact ⟨hg, rfl, rfl⟩
    | destroy =>
      simp only [exec, Option.some.injEq, Prod.mk.injEq] at hex
      obtain ⟨h1, h2⟩ := hex
      subst h1; subst h2
      exact ⟨hg, rfl, rfl⟩
    | observeActionProcessing =>
      simp only [exec, Option.some.injEq, Prod.mk.injEq] at hex
      obtain ⟨h1, h2⟩ := hex
      subst h1; subst h2
      exact ⟨hg, rfl, rfl⟩

/-- Visitor commands issued while a batch is in flight preserve the in-flight
flag; they produce no visit and no state-machine call. -/
theorem cmds_guard {fuel : Nat} {env : Env} {cs : List DriverCmd} {d d' : Driver} {t : List TraceEv}
    (hg : d.actionGuard = true) (hex : exec fuel env d (.cmds cs) = some (d', t)) :
    d'.actionGuard = true ∧ t.filter isVisit = [] ∧ t.filter isSmCall = [] := by
  induction fuel generalizing cs d d' t with
  | zero => simp [exec] at hex
  | succ g ih =>
    cases cs with
    | nil =>
      simp only [exec, Option.some.injEq, Prod.mk.injEq] at hex
      obtain ⟨h1, h2⟩ := hex
      subst h1; subst h2
      exact ⟨hg, rfl, rfl⟩
    | cons c rest =>
      simp only [exec] at hex
      cases h1 : exec g env d (.cmd c) with
      | none => simp [h1] at hex
      | some p1 =>
        obtain ⟨d1, t1⟩ := p1
        simp only [h1] at hex
        cases h2 : exec g env d1 (.cmds rest) with
        | none => simp [h2] at hex
        | some p2 =>
          obtain ⟨d2, t2⟩ := p2
          simp only [h2, Option.some.injEq, Prod.mk.injEq] at hex
          obtain ⟨hd2, ht⟩ := hex
          subst hd2; subst ht
          obtain ⟨g1, v1, s1⟩ := cmd_guard hg h1
          obtain ⟨g2, v2, s2⟩ := ih g1 h2
          exact ⟨g2, by simp [List.filter_append, v1, v2],
            by simp [List.filter_append, s1, s2]⟩

/-- Predicate `noSmCall` distributes over trace concatenation. -/
theorem noSmCall_append (a b : List TraceEv) :
    noSmCall (a ++ b) = (noSmCall a && noSmCall b) := by
  simp [noSmCall, List.all_append]

/-- Unfolding of the queue walk of the terminal-state handler. -/
theorem drain_cons (r : Nat) (e : Event) (rest : List Event) :
    drainTrace r (e :: rest) = failEvent r e ++ drainTrace r rest := by
  simp [drainTrace]

/-- The terminal-state handler invokes no state-machine entry point while it
walks the queue. -/
theorem drain_noSmCall (r : Nat) (q : List Event) :
    noSmCall (drainTrace r q) = true := by
  induction q with
  | nil => rfl
  | cons e rest ih =>
    rw [drain_cons, noSmCall_append, ih, Bool.and_true]
    cases e with
    | appWrite l cb => cases cb <;> rfl
    | earlyAppWrite l cb => cases cb <;> rfl
    | writeNewSessionTicket l => rfl
    | appClose => rfl
    | appCloseImmediate => rfl

/-- Walking the queue under the terminal-state handler fails each write
carrying callback `cb` exactly once: the number of `write_err(0, reason)`
invocations on `cb` equals the number of queued writes carrying `cb`. -/
theorem drain_count (r : Nat) (q : List Event) (cb : Nat) :
    (drainTrace r q).count (.writeErr cb 0 r) =
      (q.filter (eventHasCallback cb)).length := by
  induction q with
  | nil => rfl
  | cons e rest ih =>
    rw [drain_cons, List.count_append, ih, List.filter_cons]
    cases e with
    | appWrite l c =>
      cases c with
      | none => simp [failEvent, eventHasCallback]
      | some c0 =>
        by_cases hc : c0 = cb
        · subst hc
          simp [failEvent, eventHasCallback, List.count_cons, Nat.add_comm]
        · simp [failEvent, eventHasCallback, List.count_cons, hc]
    | earlyAppWrite l c =>
      cases c with
      | none => simp [failEvent, eventHasCallback]
      | some c0 =>
        by_cases hc : c0 = cb
        · subst hc
          simp [failEvent, eventHasCallback, List.count_cons, Nat.add_comm]
        · simp [failEvent, eventHasCallback, List.count_cons, hc]
    | writeNewSessionTicket l => simp [failEvent, eventHasCallback]
    | appClose => simp [failEvent, eventHasCallback]
    | appCloseImmediate => simp [failEvent, eventHasCallback]

end Fizz

namespace Fizz

/-- Every action of a batch is visited, in batch order: the visits appearing
in the trace of a batch visitation start with exactly one visit per action of
the batch, in order (anything after them comes from later batches dispatched
once this batch completed). -/
theorem actions_visits {fuel : Nat} {env : Env} {batch : List Action} {d d' : Driver}
    {t : List TraceEv} (hg : d.actionGuard = true)
    (hex : exec fuel env d (.actions batch) = some (d', t)) :
    ∃ rest, t.filter isVisit = batch.map TraceEv.visit ++ rest := by
  induction fuel generalizing batch d d' t with
  | zero => simp [exec] at hex
  | succ g ih =>
    cases batch with
    | nil => exact ⟨t.filter isVisit, by simp⟩
    | cons a rest =>
      simp only [exec] at hex
      cases h1 : exec g env { d with visits := d.visits + 1 } (.cmds (env.visResp d.visits)) with
      | none => simp [h1] at hex
      | some p1 =>
        obtain ⟨d1, t1⟩ := p1
        simp only [h1] at hex
        cases h2 : exec g env d1 (.actions rest) with
        | none => simp [h2] at hex
        | some p2 =>
          obtain ⟨d2, t2⟩ := p2
          simp only [h2, Option.some.injEq, Prod.mk.injEq] at hex
          obtain ⟨hd, ht⟩ := hex
          subst hd; subst ht
          obtain ⟨g1, v1, _⟩ := cmds_guard
            (show ({ d with visits := d.visits + 1 } : Driver).actionGuard = true from hg) h1
          obtain ⟨r2, hr2⟩ := ih g1 h2
          refine ⟨r2, ?_⟩
          simp [List.filter_append, v1, hr2, isVisit]

/-- Calling `move_to_error_state(reason)` on a quiescent driver: the queue is walked
once — each queued write with a callback gets `write_err(0, reason)`, nothing
else is emitted — the queue is cleared, and the terminal flag (but not the
opaque state) is set. -/
theorem mtes_exec {fuel : Nat} {env : Env} {r : Nat} {d d' : Driver} {t : List TraceEv}
    (hg : d.actionGuard = false) (hip : d.inPPE = false) (hee : d.externalError = false)
    (her : d.errorReason = none)
    (hex : exec fuel env d (.cmd (.moveToErrorState r)) = some (d', t)) :
    t = drainTrace r d.queue ∧
      d' = { d with queue := [], externalError := true, errorReason := some r } := by
  obtain ⟨q, ss, wfd, ag, ip, ee, er, dr, sc, vi⟩ := d
  simp only at hg hip hee her
  subst hg hip hee her
  rcases fuel with _ | g
  · simp [exec] at hex
  · simp only [exec, Option.getD_none] at hex
    rcases g with _ | g
    · simp [exec] at hex
    · simp only [exec] at hex
      rcases g with _ | g
      · simp [exec] at hex
      · simp only [exec, inTerminalState, inErrorState] at hex
        simp [reasonOf] at hex
        obtain ⟨h1, h2⟩ := hex
        exact ⟨h2.symm, h1.symm⟩

/-- Pushing a queue event on a terminal-flagged quiescent driver dispatches
nothing: the pump immediately runs the terminal-state handler, failing the
whole queue (including the new event) with the stored reason. -/
theorem push_term {fuel : Nat} {env : Env} {e : Event} {d d' : Driver} {t : List TraceEv}
    (hee : d.externalError = true) (hg : d.actionGuard = false) (hip : d.inPPE = false)
    (hex : exec fuel env d (.cmd (.pushEvent e)) = some (d', t)) :
    t = drainTrace (reasonOf d) (d.queue ++ [e]) ∧
      d' = { d with queue := [] } := by
  obtain ⟨q, ss, wfd, ag, ip, ee, er, dr, sc, vi⟩ := d
  simp only at hee hg hip
  subst hee hg hip
  rcases fuel with _ | g
  · simp [exec] at hex
  · simp only [exec] at hex
    rcases g with _ | g
    · simp [exec] at hex
    · simp only [exec] at hex
      rcases g with _ | g
      · simp [exec] at hex
      · simp only [exec, inTerminalState, inErrorState] at hex
        simp [reasonOf] at hex
        obtain ⟨h1, h2⟩ := hex
        exact ⟨h2.symm, h1.symm⟩

/-- Calling `new_transport_data()` on a terminal-flagged quiescent driver dispatches
nothing; the terminal-state handler clears whatever is queued. -/
theorem ntd_term {fuel : Nat} {env : Env} {d d' : Driver} {t : List TraceEv}
    (hee : d.externalError = true) (hg : d.actionGuard = false) (hip : d.inPPE = false)
    (hex : exec fuel env d (.cmd .newTransportData) = some (d', t)) :
    t = drainTrace (reasonOf d) d.queue ∧
      d' = { d with waitForData := false, queue := [] } := by
  obtain ⟨q, ss, wfd, ag, ip, ee, er, dr, sc, vi⟩ := d
  simp only at hee hg hip
  subst hee hg hip
  rcases fuel with _ | g
  · simp [exec] at hex
  · simp only [exec] at hex
    rcases g with _ | g
    · simp [exec] at hex
    · simp only [exec] at hex
      rcases g with _ | g
      · simp [exec] at hex
      · simp only [exec, inTerminalState, inErrorState] at hex
        simp [reasonOf] at hex
        obtain ⟨h1, h2⟩ := hex
        exact ⟨h2.symm, h1.symm⟩

/-- Any push operation performed once the terminal flag is up invokes no
state-machine entry point and leaves the driver terminal and quiescent. -/
theorem op_term {fuel : Nat} {env : Env} {op : TopOp} {d d' : Driver} {t : List TraceEv}
    (hpush : isPushOp op = true)
    (hee : d.externalError = true) (hg : d.actionGuard = false) (hip : d.inPPE = false)
    (hex : runOp fuel env d op = some (d', t)) :
    noSmCall t = true ∧ d'.externalError = true ∧ d'.actionGuard = false ∧
      d'.inPPE = false := by
  have hterm :
      ∀ (e : Event) (hexp : exec fuel env d (.cmd (.pushEvent e)) = some (d', t)),
        noSmCall t = true ∧ d'.externalError = true ∧ d'.actionGuard = false ∧
          d'.inPPE = false := by
    intro e hexp
    obtain ⟨h1, h2⟩ := push_term hee hg hip hexp
    subst h1; subst h2
    exact ⟨drain_noSmCall _ _, hee, hg, hip⟩
  cases op with
  | appWrite l cb =>
    by_cases hdes : destroyed d = true
    · simp only [runOp, hdes, if_true, Option.some.injEq, Prod.mk.injEq] at hex
      obtain ⟨h1, h2⟩ := hex
      subst h1; subst h2
      exact ⟨rfl, hee, hg, hip⟩
    · exact hterm _ (by simpa [runOp, hdes] using hex)
  | earlyAppWrite l cb =>
    by_cases hdes : destroyed d = true
    · simp only [runOp, hdes, if_true, Option.some.injEq, Prod.mk.injEq] at hex
      obtain ⟨h1, h2⟩ := hex
      subst h1; subst h2
      exact ⟨rfl, hee, hg, hip⟩
    · exact hterm _ (by simpa [runOp, hdes] using hex)
  | writeNewSessionTicket l =>
    by_cases hdes : destroyed d = true
    · simp only [runOp, hdes, if_true, Option.some.injEq, Prod.mk.injEq] at hex
      obtain ⟨h1, h2⟩ := hex
      subst h1; subst h2
      exact ⟨rfl, hee, hg, hip⟩
    · exact hterm _ (by simpa [runOp, hdes] using hex)
  | appClose =>
    by_cases hdes : destroyed d = true
    · simp only [runOp, hdes, if_true, Option.some.injEq, Prod.mk.injEq] at hex
      obtain ⟨h1, h2⟩ := hex
      subst h1; subst h2
      exact ⟨rfl, hee, hg, hip⟩
    · exact hterm _ (by simpa [runOp, hdes] using hex)
  | appCloseImmediate =>
    by_cases hdes : destroyed d = true
    · simp only [runOp, hdes, if_true, Option.some.injEq, Prod.mk.injEq] at hex
      obtain ⟨h1, h2⟩ := hex
      subst h1; subst h2
      exact ⟨rfl, hee, hg, hip⟩
    · exact hterm _ (by simpa [runOp, hdes] using hex)
  | newTransportData =>
    by_cases hdes : destroyed d = true
    · simp only [runOp, hdes, if_true, Option.some.injEq, Prod.mk.injEq] at hex
      obtain ⟨h1, h2⟩ := hex
      subst h1; subst h2
      exact ⟨rfl, hee, hg, hip⟩
    · have hexp : exec fuel env d (.cmd .newTransportData) = some (d', t) := by
        simpa [runOp, hdes] using hex
      obtain ⟨h1, h2⟩ := ntd_term hee hg hip hexp
      subst h1; subst h2
      exact ⟨drain_noSmCall _ _, hee, hg, hip⟩
  | destroy => simp [isPushOp] at hpush
  | resolvePromise batch => simp [isPushOp] at hpush

/-- Any sequence of push operations performed once the terminal flag is up
invokes no state-machine entry point. -/
theorem ops_term {env : Env} {ops : List TopOp} :
    ∀ {fuel : Nat} {d d' : Driver} {t : List TraceEv},
      (∀ op ∈ ops, isPushOp op = true) →
      d.externalError = true → d.actionGuard = false → d.inPPE = false →
      runOps fuel env d ops = some (d', t) → noSmCall t = true := by
  induction ops with
  | nil =>
    intro fuel d d' t _ _ _ _ hex
    simp only [runOps, Option.some.injEq, Prod.mk.injEq] at hex
    obtain ⟨h1, h2⟩ := hex
    subst h2
    rfl
  | cons op ops ih =>
    intro fuel d d' t hpush hee hg hip hex
    simp only [runOps] at hex
    cases h1 : runOp fuel env d op with
    | none => simp [h1] at hex
    | some p1 =>
      obtain ⟨d1, t1⟩ := p1
      simp only [h1] at hex
      cases h2 : runOps fuel env d1 ops with
      | none => simp [h2] at hex
      | some p2 =>
        obtain ⟨d2, t2⟩ := p2
        simp only [h2, Option.some.injEq, Prod.mk.injEq] at hex
        obtain ⟨hd, ht⟩ := hex
        subst hd; subst ht
        obtain ⟨n1, e1, g1, i1⟩ :=
          op_term (hpush op (List.mem_cons_self op ops)) hee hg hip h1
        have n2 := ih (fun o ho => hpush o (List.mem_cons_of_mem op ho)) e1 g1 i1 h2
        rw [noSmCall_append, n1, n2]
        rfl

end Fizz

namespace Fizz

/-- Pushing a queue event while a batch is in flight only enqueues: no trace
is produced, the event is appended to the queue, and `actionProcessing`
stays up. -/
theorem push_guard_exec {fuel : Nat} {env : Env} {e : Event} {d d' : Driver}
    {t : List TraceEv} (hg : d.actionGuard = true)
    (hex : exec fuel env d (.cmd (.pushEvent e)) = some (d', t)) :
    t = [] ∧ d'.queue = d.queue ++ [e] ∧ d'.actionGuard = true := by
  rcases fuel with _ | g
  · simp [exec] at hex
  · simp only [exec] at hex
    rcases pump_guard (d := { d with queue := d.queue ++ [e] })
        (show ({ d with queue := d.queue ++ [e] } : Driver).actionGuard = true from hg)
        hex with h | h <;>
      (rw [Prod.ext_iff] at h; obtain ⟨h1, h2⟩ := h; subst h1; subst h2;
       exact ⟨rfl, rfl, hg⟩)

/-- The push operations, performed while a deferred batch is awaited (or any
batch is being visited), only enqueue the event: nothing is dispatched until
the in-flight batch completes. -/
theorem guard_push {fuel : Nat} {env : Env} {op : TopOp} {e : Event} {d d' : Driver}
    {t : List TraceEv} (hop : pushedEvent op = some e) (hg : d.actionGuard = true)
    (hex : runOp fuel env d op = some (d', t)) :
    t = [] ∧ d'.queue = d.queue ++ [e] ∧ actionProcessing d' = true := by
  have hdes : destroyed d = false := by simp [destroyed, hg]
  cases op with
  | appWrite l cb =>
    simp only [pushedEvent, Option.some.injEq] at hop
    subst hop
    exact push_guard_exec hg (by simpa [runOp, hdes] using hex)
  | earlyAppWrite l cb =>
    simp only [pushedEvent, Option.some.injEq] at hop
    subst hop
    exact push_guard_exec hg (by simpa [runOp, hdes] using hex)
  | writeNewSessionTicket l =>
    simp only [pushedEvent, Option.some.injEq] at hop
    subst hop
    exact push_guard_exec hg (by simpa [runOp, hdes] using hex)
  | appClose =>
    simp only [pushedEvent, Option.some.injEq] at hop
    subst hop
    exact push_guard_exec hg (by simpa [runOp, hdes] using hex)
  | appCloseImmediate =>
    simp only [pushedEvent, Option.some.injEq] at hop
    subst hop
    exact push_guard_exec hg (by simpa [runOp, hdes] using hex)
  | newTransportData => simp [pushedEvent] at hop
  | destroy => simp [pushedEvent] at hop
  | resolvePromise batch => simp [pushedEvent] at hop

/-- After the opaque state has been mutated to `Error` (without
`move_to_error_state`), pushing a queue event dispatches nothing and fails no
callback: the event is merely enqueued. -/
theorem push_err_exec {fuel : Nat} {env : Env} {e : Event} {d d' : Driver}
    {t : List TraceEv} (hss : d.smState = .error) (hg : d.actionGuard = false)
    (hip : d.inPPE = false) (hee : d.externalError = false)
    (hex : exec fuel env d (.cmd (.pushEvent e)) = some (d', t)) :
    t = [] ∧ d' = { d with queue := d.queue ++ [e] } := by
  obtain ⟨q, ss, wfd, ag, ip, ee, er, dr, sc, vi⟩ := d
  simp only at hss hg hip hee
  subst hss hg hip hee
  rcases fuel with _ | g
  · simp [exec] at hex
  · simp only [exec] at hex
    rcases g with _ | g
    · simp [exec] at hex
    · simp only [exec] at hex
      rcases g with _ | g
      · simp [exec] at hex
      · simp only [exec, inTerminalState, inErrorState] at hex
        simp at hex
        obtain ⟨h1, h2⟩ := hex
        exact ⟨h2, h1.symm⟩

/-- State-machine-error variant of a push: with `state() == Error` observed
and the terminal flag not set, a push enqueues the event, invokes no
state-machine entry point, fails no write callback, and `in_error_state()`
remains true. -/
theorem err_push {fuel : Nat} {env : Env} {op : TopOp} {e : Event} {d d' : Driver}
    {t : List TraceEv} (hop : pushedEvent op = some e) (hss : d.smState = .error)
    (hg : d.actionGuard = false) (hip : d.inPPE = false) (hee : d.externalError = false)
    (hdr : d.destroyRequested = false)
    (hex : runOp fuel env d op = some (d', t)) :
    t = [] ∧ d'.queue = d.queue ++ [e] ∧ inErrorState d' = true := by
  have hdes : destroyed d = false := by simp [destroyed, hdr]
  have hcore :
      ∀ (hexp : exec fuel env d (.cmd (.pushEvent e)) = some (d', t)),
        t = [] ∧ d'.queue = d.queue ++ [e] ∧ inErrorState d' = true := by
    intro hexp
    obtain ⟨h1, h2⟩ := push_err_exec hss hg hip hee hexp
    subst h1; subst h2
    exact ⟨rfl, rfl, by simp [inErrorState, hss]⟩
  cases op with
  | appWrite l cb =>
    simp only [pushedEvent, Option.some.injEq] at hop
    subst hop
    exact hcore (by simpa [runOp, hdes] using hex)
  | earlyAppWrite l cb =>
    simp only [pushedEvent, Option.some.injEq] at hop
    subst hop
    exact hcore (by simpa [runOp, hdes] using hex)
  | writeNewSessionTicket l =>
    simp only [pushedEvent, Option.some.injEq] at hop
    subst hop
    exact hcore (by simpa [runOp, hdes] using hex)
  | appClose =>
    simp only [pushedEvent, Option.some.injEq] at hop
    subst hop
    exact hcore (by simpa [runOp, hdes] using hex)
  | appCloseImmediate =>
    simp only [pushedEvent, Option.some.injEq] at hop
    subst hop
    exact hcore (by simpa [runOp, hdes] using hex)
  | newTransportData => simp [pushedEvent] at hop
  | destroy => simp [pushedEvent] at hop
  | resolvePromise batch => simp [pushedEvent] at hop

/-- One dispatcher iteration on transport data whose canned response performs
nothing and yields an empty synchronous batch. -/
theorem dispatch_empty (f : Nat) (env : Env) (d : Driver) (hip : d.inPPE = true)
    (hresp : env.smResp d.smCalls = ⟨[], some []⟩) :
    exec (f + 4) env d (.dispatch .processSocketData) =
      some ({ d with smCalls := d.smCalls + 1, actionGuard := false },
        [.smCall .processSocketData]) := by
  simp [exec, hresp, hip]

/-- One dispatcher iteration on transport data whose canned response calls
`wait_for_data()` and yields an empty synchronous batch. -/
theorem dispatch_wait (f : Nat) (env : Env) (d : Driver) (hip : d.inPPE = true)
    (hresp : env.smResp d.smCalls = ⟨[.waitForData], some []⟩) :
    exec (f + 4) env d (.dispatch .processSocketData) =
      some ({ d with smCalls := d.smCalls + 1, waitForData := true, actionGuard := false },
        [.smCall .processSocketData]) := by
  simp [exec, hresp, hip]

/-- TestManyActions, the dispatch loop: with `wait_for_data` not requested and
an empty queue, the dispatcher calls `process_socket_data` once per empty
batch, `n + 1` times in total, until the response requests `wait_for_data`;
then the loop stops with the driver quiescent. -/
theorem loop_many (n : Nat) :
    ∀ (c : Nat) (d : Driver), d.actionGuard = false → d.inPPE = true →
      d.externalError = false → d.smState = .notError → d.waitForData = false →
      d.queue = [] → d.smCalls = c →
      exec (n + 6) (envMany (c + n + 1)) d .loop =
        some ({ d with smCalls := c + n + 1, waitForData := true },
          List.replicate (n + 1) (.smCall .processSocketData)) := by
  induction n with
  | zero =>
    intro c d hg hip hee hss hwf hq hsc
    obtain ⟨q, ss, wfd, ag, ip, ee, er, dr, sc, vi⟩ := d
    simp only at hg hip hee hss hwf hq hsc
    subst hg hip hee hss hwf hq hsc
    simp [exec, envMany, inTerminalState, inErrorState]
  | succ m ih =>
    intro c d hg hip hee hss hwf hq hsc
    obtain ⟨q, ss, wfd, ag, ip, ee, er, dr, sc, vi⟩ := d
    simp only at hg hip hee hss hwf hq hsc
    subst hg hip hee hss hwf hq hsc
    have hresp : (envMany (sc + (m + 1) + 1)).smResp sc = ⟨[], some []⟩ := by
      have : sc + 1 < sc + (m + 1) + 1 := by omega
      simp [envMany, this]
    have hdisp :
        exec (m + 6) (envMany (sc + (m + 1) + 1))
          ⟨[], .notError, false, true, true, false, er, dr, sc, vi⟩
          (.dispatch .processSocketData) =
        some (⟨[], .notError, false, false, true, false, er, dr, sc + 1, vi⟩,
          [.smCall .processSocketData]) :=
      dispatch_empty (m + 2) _ _ rfl hresp
    have hstep := ih (sc + 1)
      ⟨[], .notError, false, false, true, false, er, dr, sc + 1, vi⟩
      rfl rfl rfl rfl rfl rfl rfl
    have hstep' :
        exec (m + 6) (envMany (sc + (m + 1) + 1))
          ⟨[], .notError, false, false, true, false, er, dr, sc + 1, vi⟩ .loop =
        some (⟨[], .notError, true, false, true, false, er, dr, sc + (m + 1) + 1, vi⟩,
          List.replicate (m + 1) (.smCall .processSocketData)) := by
      rw [show sc + 1 + m + 1 = sc + (m + 1) + 1 from by omega] at hstep
      exact hstep
    show exec ((m + 6) + 1) (envMany (sc + (m + 1) + 1))
      ⟨[], .notError, false, false, true, false, er, dr, sc, vi⟩ .loop = _
    rw [exec]
    simp only [inTerminalState, inErrorState, Bool.false_or, Bool.or_false,
      Bool.not_false, if_true, if_false, Bool.false_eq_true, ite_false, ite_true]
    simp only [hdisp, hstep']
    simp [List.replicate_succ]

/-- Unfolding of `new_transport_data()`: clear the wait flag and pump. -/
theorem ntd_unfold (fuel : Nat) (env : Env) (d : Driver) :
    exec (fuel + 1) env d (.cmd .newTransportData) =
      exec fuel env { d with waitForData := false } .pump := rfl

/-- A pump whose dispatch loop completes without the terminal flag set simply
drops the re-entrancy latch. -/
theorem pump_of_loop {fuel : Nat} {env : Env} {d w : Driver} {tr : List TraceEv}
    (hip : d.inPPE = false) (hee : w.externalError = false)
    (hl : exec fuel env { d with inPPE := true } .loop = some (w, tr)) :
    exec (fuel + 1) env d .pump = some ({ w with inPPE := false }, tr) := by
  simp [exec, hip, hl, hee]

/-- Unfolding of `runOp` on `new_transport_data` for a live driver. -/
theorem runOp_ntd {fuel : Nat} {env : Env} {d : Driver} (hdes : destroyed d = false) :
    runOp fuel env d .newTransportData = exec fuel env d (.cmd .newTransportData) := by
  simp [runOp, hdes]

/-- A singleton scenario runs exactly its operation. -/
theorem runOps_one {fuel : Nat} {env : Env} {op : TopOp} {d d' : Driver} {t : List TraceEv}
    (h : runOp fuel env d op = some (d', t)) :
    runOps fuel env d [op] = some (d', t) := by
  simp [runOps, h]

/-- TestManyActions at the scenario level: `new_transport_data()` with
`n + 1` canned empty batches, the last of which requests `wait_for_data`,
makes exactly `n + 1` `process_socket_data` calls and returns to quiescence. -/
theorem read_empty_run (n : Nat) :
    runOps (n + 8) (envMany (n + 1)) init [.newTransportData] =
      some ({ init with smCalls := n + 1 },
        List.replicate (n + 1) (.smCall .processSocketData)) := by
  have hl := loop_many n 0 ⟨[], .notError, false, false, true, false, none, false, 0, 0⟩
    rfl rfl rfl rfl rfl rfl rfl
  rw [Nat.zero_add] at hl
  have hpump :
      exec (n + 7) (envMany (n + 1))
        ⟨[], .notError, false, false, false, false, none, false, 0, 0⟩ .pump =
      some (⟨[], .notError, true, false, false, false, none, false, n + 1, 0⟩,
        List.replicate (n + 1) (.smCall .processSocketData)) := by
    have := pump_of_loop (d := ⟨[], .notError, false, false, false, false, none, false, 0, 0⟩)
      (w := ⟨[], .notError, true, false, true, false, none, false, n + 1, 0⟩)
      rfl rfl hl
    rw [show (n + 6) + 1 = n + 7 from rfl] at this
    exact this
  have hcmd :
      exec (n + 8) (envMany (n + 1)) init (.cmd .newTransportData) =
      some (⟨[], .notError, true, false, false, false, none, false, n + 1, 0⟩,
        List.replicate (n + 1) (.smCall .processSocketData)) := by
    rw [show (n + 8 : Nat) = (n + 7) + 1 from rfl, ntd_unfold]
    exact hpump
  have hop : runOp (n + 8) (envMany (n + 1)) init .newTransportData =
      some (⟨[], .notError, true, false, false, false, none, false, n + 1, 0⟩,
        List.replicate (n + 1) (.smCall .processSocketData)) := by
    rw [runOp_ntd (d := init) (by rfl)]
    exact hcmd
  exact runOps_one hop

/-- Pushing a queue event on a quiescent non-terminal driver (environment:
every batch empty, every visitor silent) dispatches exactly the matching
state-machine entry point and returns to quiescence. -/
theorem push_quiet (f c v : Nat) (e : Event) :
    runOp (f + 6) envAllEmpty (quiet c v) (pushOpOf e) =
      some (quiet (c + 1) v, [.smCall (entryFor e)]) := by
  cases e <;>
    simp [runOp, pushOpOf, destroyed, quiet, exec, entryFor, envAllEmpty,
      inTerminalState, inErrorState]

/-- Pushing any sequence of queue events on a quiescent driver, with every
batch empty, invokes the matching entry points in exactly push order. -/
theorem pushes_quiet (evs : List Event) :
    ∀ (f c v : Nat),
      runOps (f + 6) envAllEmpty (quiet c v) (evs.map pushOpOf) =
        some (quiet (c + evs.length) v,
          evs.map fun e => TraceEv.smCall (entryFor e)) := by
  induction evs with
  | nil =>
    intro f c v
    simp [runOps]
  | cons e evs ih =>
    intro f c v
    have harith : c + 1 + evs.length = c + (evs.length + 1) := by omega
    simp only [List.map_cons, runOps, push_quiet, ih, List.length_cons]
    simp [harith]

end Fizz

namespace Fizz

/-! ### The claims -/

/-- C10: `Factory::makeKeyDeriver` and `Factory::makeAead` return a non-null
object exactly for `TLS_CHACHA20_POLY1305_SHA256`, `TLS_AES_128_GCM_SHA256`,
`TLS_AES_128_OCB_SHA256_EXPERIMENTAL` and `TLS_AES_256_GCM_SHA384`, and throw
`std::runtime_error` for every other cipher-suite value; `makeKeyExchange`
returns a non-null object exactly for `secp256r1`, `secp384r1`, `secp521r1`
and `x25519`, and throws for every other named-group value. -/
theorem claim_C10 :
    (∀ c : CipherSuite, isOk (makeKeyDeriver c) = claimedSupportedSuite c) ∧
    (∀ c : CipherSuite, isOk (makeAead c) = claimedSupportedSuite c) ∧
    (∀ g : NamedGroup, isOk (makeKeyExchange g) = claimedSupportedGroup g) ∧
    (∀ k : Nat,
      makeKeyDeriver (.unknownSuite k) = .error "ks: not implemented" ∧
      makeAead (.unknownSuite k) = .error "aead: not implemented" ∧
      makeKeyExchange (.unknownGroup k) = .error "ke: not implemented") := by
  refine ⟨fun c => ?_, fun c => ?_, fun g => ?_, fun k => ⟨rfl, rfl, rfl⟩⟩
  · cases c <;> rfl
  · cases c <;> rfl
  · cases g <;> rfl

/-- C9: TestReadSingle — pushing one `TransportData` whose batch is `[A1]`
and whose `A1` visitor calls `wait_for_data()` makes exactly one
`process_socket_data` call and one visit, and `action_processing()` is false
once the push returns (the driver is quiescent until new transport data). -/
theorem claim_C9 :
    runOps 50 env9 init [.newTransportData] =
      some (⟨[], .notError, true, false, false, false, none, false, 1, 1⟩,
        [.smCall .processSocketData, .visit .a1]) ∧
    actionProcessing ⟨[], .notError, true, false, false, false, none, false, 1, 1⟩ = false ∧
    Driver.waitForData ⟨[], .notError, true, false, false, false, none, false, 1, 1⟩ = true := by
  refine ⟨by decide, rfl, rfl⟩

/-- C1: after `move_to_error_state(reason)` has fully unwound on a quiescent
driver, the trace is exactly the terminal queue walk — each queued write
carrying a callback gets `write_err(0, reason)` exactly once, every other
queued event is discarded without its entry point being invoked —
`in_terminal_state()` becomes true while `in_error_state()` is unchanged
(false if the opaque state was not in error), the queue is cleared, and no
later push ever reaches a state-machine entry point; and the
TestErrorPendingEvents scenario replays exactly as the test expects. -/
theorem claim_C1 :
    (∀ (env : Env) (fuel r : Nat) (d d' : Driver) (t : List TraceEv),
      d.actionGuard = false → d.inPPE = false → d.externalError = false →
      d.errorReason = none →
      exec fuel env d (.cmd (.moveToErrorState r)) = some (d', t) →
      t = drainTrace r d.queue ∧
      (∀ cb, t.count (.writeErr cb 0 r) =
        (d.queue.filter (eventHasCallback cb)).length) ∧
      noSmCall t = true ∧
      inTerminalState d' = true ∧ inErrorState d' = inErrorState d ∧ d'.queue = [] ∧
      (∀ (ops : List TopOp) (fuel2 : Nat) (d2 : Driver) (t2 : List TraceEv),
        (∀ op ∈ ops, isPushOp op = true) →
        runOps fuel2 env d' ops = some (d2, t2) → noSmCall t2 = true)) ∧
    runOps 80 envC1 init [.appWrite 1 none] =
      some (⟨[], .notError, true, false, false, true, some 7, false, 2, 1⟩,
        [.smCall (.processAppWrite 1), .visit .a1, .smCall (.processAppWrite 2),
         .writeErr 0 0 7, .writeErr 1 0 7]) ∧
    inTerminalState ⟨[], .notError, true, false, false, true, some 7, false, 2, 1⟩ = true ∧
    inErrorState ⟨[], .notError, true, false, false, true, some 7, false, 2, 1⟩ = false := by
  refine ⟨?_, by decide, rfl, rfl⟩
  intro env fuel r d d' t hg hip hee her hex
  obtain ⟨h1, h2⟩ := mtes_exec hg hip hee her hex
  subst h1
  subst h2
  refine ⟨rfl, fun cb => drain_count r d.queue cb, drain_noSmCall r d.queue,
    by simp [inTerminalState], rfl, rfl, ?_⟩
  intro ops fuel2 d2 t2 hpush hrun
  exact ops_term
    (d := { d with queue := [], externalError := true, errorReason := some r })
    hpush rfl hg hip hrun

/-- Witness for C1: the general statement applied to a one-event queue — a
write carrying callback 3 — with reason 7. -/
theorem witness_C1 :
    [TraceEv.writeErr 3 0 7] = drainTrace 7 [Event.appWrite 9 (some 3)] :=
  (claim_C1.1 envAllEmpty 20 7
    ⟨[Event.appWrite 9 (some 3)], .notError, true, false, false, false, none, false, 0, 0⟩
    ⟨[], .notError, true, false, false, true, some 7, false, 0, 0⟩
    [TraceEv.writeErr 3 0 7] rfl rfl rfl rfl (by decide)).1

/-- C2: events are dispatched to the state machine in push order: pushing any
sequence of events on a quiescent driver (all batches empty) invokes the
matching entry points in exactly that order; and in the reentrant
TestWriteInCallback scenario — `write2`, `write3` pushed inside `write1`'s
visitor and `write4` inside `write2`'s — the state-machine call order is
`write1, write2, write3, write4`. -/
theorem claim_C2 :
    (∀ (evs : List Event) (f : Nat),
      runOps (f + 6) envAllEmpty init (evs.map pushOpOf) =
        some (quiet evs.length 0, evs.map fun e => TraceEv.smCall (entryFor e))) ∧
    runOps 80 envC2 init [.appWrite 1 none] =
      some (⟨[], .notError, true, false, false, false, none, false, 4, 2⟩,
        [.smCall (.processAppWrite 1), .visit .a1, .smCall (.processAppWrite 2),
         .visit .a2, .smCall (.processAppWrite 3), .smCall (.processAppWrite 4)]) := by
  refine ⟨?_, by decide⟩
  intro evs f
  have h := pushes_quiet evs f 0 0
  rw [Nat.zero_add] at h
  exact h

/-- C3: if a visitor calls `move_to_error_state` in the middle of a batch,
the remaining actions of that batch are still visited in order — in general,
the trace of any completed batch visitation starts with one visit per action
in batch order — and only after the batch is exhausted does the
terminal-state handler run (in the replay, the pending write's `write_err`
fires after `visit A2`). -/
theorem claim_C3 :
    (∀ (fuel : Nat) (env : Env) (batch : List Action) (d d' : Driver) (t : List TraceEv),
      d.actionGuard = true → exec fuel env d (.actions batch) = some (d', t) →
      ∃ rest, t.filter isVisit = batch.map TraceEv.visit ++ rest) ∧
    runOps 60 envC3 init [.newTransportData] =
      some (⟨[], .notError, false, false, false, true, some 8, false, 1, 2⟩,
        [.smCall .processSocketData, .visit .a1, .visit .a2, .writeErr 4 0 8]) :=
  ⟨fun _ _ _ _ _ _ hg hex => actions_visits hg hex, by decide⟩

/-- Witness for C3: the general statement applied to the one-action batch
`[A1]` with a silent visitor. -/
theorem witness_C3 :
    ∃ rest, List.filter isVisit [TraceEv.visit Action.a1] =
      List.map TraceEv.visit [Action.a1] ++ rest :=
  claim_C3.1 10 envAllEmpty [.a1]
    ⟨[], .notError, true, true, false, false, none, false, 0, 0⟩
    ⟨[], .notError, true, false, false, false, none, false, 0, 1⟩
    [TraceEv.visit Action.a1] rfl (by decide)

/-- C4, counterexample: in the TestDeleteInCallback replay the visitor of
`A1` requests destruction of the driver, yet the trace continues with a
second `process_socket_data` call and `visit A2` — the claim that destruction
"aborts pumping", that no further action of any batch is visited and no
state-machine entry point is invoked again, is false for this run (the test
expects exactly this continued trace). -/
theorem claim_C4_counterexample :
    runOps 60 envC4a init [.newTransportData] =
      some (⟨[], .notError, true, false, false, false, none, true, 2, 2⟩,
        [.smCall .processSocketData, .visit .a1, .smCall .processSocketData,
         .visit .a2]) := by decide

/-- C4, amended: destruction requested from inside a callback or while a
deferred batch is pending is deferred (delayed destruction): pumping
continues — the current and subsequent batches are visited and queued events
are still dispatched (in TestAsyncActionDelete, `write2` is dispatched by the
batch resolution that arrives after the destroy request) — and the driver
becomes destroyed only once processing quiesces; every top-level operation on
an actually destroyed driver, including a later batch resolution, is a
no-op. -/
theorem claim_C4 :
    (∀ (fuel : Nat) (env : Env) (d : Driver) (op : TopOp), destroyed d = true →
      runOp fuel env d op = some (d, [])) ∧
    runOps 60 envC4b init [.appWrite 1 none, .appWrite 2 none, .destroy] =
      some (⟨[.appWrite 2 none], .notError, true, true, false, false, none, true, 1, 0⟩,
        [.smCall (.processAppWrite 1)]) ∧
    destroyed ⟨[.appWrite 2 none], .notError, true, true, false, false, none, true, 1, 0⟩
        = false ∧
    actionProcessing
        ⟨[.appWrite 2 none], .notError, true, true, false, false, none, true, 1, 0⟩ = true ∧
    runOps 60 envC4b
        ⟨[.appWrite 2 none], .notError, true, true, false, false, none, true, 1, 0⟩
        [.resolvePromise []] =
      some (⟨[], .notError, true, false, false, false, none, true, 2, 0⟩,
        [.smCall (.processAppWrite 2)]) ∧
    destroyed ⟨[], .notError, true, false, false, false, none, true, 2, 0⟩ = true ∧
    runOps 60 envC4a init [.newTransportData] =
      some (⟨[], .notError, true, false, false, false, none, true, 2, 2⟩,
        [.smCall .processSocketData, .visit .a1, .smCall .processSocketData,
         .visit .a2]) ∧
    destroyed ⟨[], .notError, true, false, false, false, none, true, 2, 2⟩ = true := by
  refine ⟨?_, by decide, rfl, rfl, by decide, rfl, by decide, rfl⟩
  intro fuel env d op h
  obtain ⟨q, ss, wfd, ag, ip, ee, er, dr, sc, vi⟩ := d
  simp only [destroyed, Bool.and_eq_true, Bool.not_eq_true'] at h
  obtain ⟨⟨h1, h2⟩, h3⟩ := h
  subst h1; subst h2; subst h3
  cases op <;> simp [runOp, destroyed]

/-- Witness for C4: operating on an actually destroyed driver is a no-op. -/
theorem witness_C4 :
    runOp 5 envAllEmpty
        ⟨[], .notError, true, false, false, false, none, true, 0, 0⟩ .appClose =
      some (⟨[], .notError, true, false, false, false, none, true, 0, 0⟩, []) :=
  claim_C4.1 5 envAllEmpty
    ⟨[], .notError, true, false, false, false, none, true, 0, 0⟩ .appClose rfl

/-- C5: `action_processing()` is false before any push; it is true when
observed from inside a state-machine entry point (both in the synchronous and
the deferred scenario); it remains true between the return of an unresolved
deferred batch and its resolution; and it is false again once the queue has
drained. -/
theorem claim_C5 :
    actionProcessing init = false ∧
    runOps 40 envC5a init [.appClose] =
      some (⟨[], .notError, true, false, false, false, none, false, 1, 0⟩,
        [.smCall .processAppClose, .observedActionProcessing true]) ∧
    actionProcessing ⟨[], .notError, true, false, false, false, none, false, 1, 0⟩
        = false ∧
    runOps 40 envC5b init [.appClose] =
      some (⟨[], .notError, true, true, false, false, none, false, 1, 0⟩,
        [.smCall .processAppClose, .observedActionProcessing true]) ∧
    actionProcessing ⟨[], .notError, true, true, false, false, none, false, 1, 0⟩ = true ∧
    runOps 40 envC5b ⟨[], .notError, true, true, false, false, none, false, 1, 0⟩
        [.resolvePromise []] =
      some (⟨[], .notError, true, false, false, false, none, false, 1, 0⟩, []) ∧
    actionProcessing ⟨[], .notError, true, false, false, false, none, false, 1, 0⟩
        = false := by
  refine ⟨rfl, by decide, rfl, by decide, rfl, by decide, rfl⟩

/-- C6: while a deferred batch is awaited, a pushed event is enqueued but not
dispatched — in general any push made with a batch in flight only appends to
the queue, leaves no trace, and keeps `action_processing()` up — and in the
TestAsyncAction replay `write2`'s entry point runs only after `write1`'s
batch has resolved and been fully visited. -/
theorem claim_C6 :
    (∀ (fuel : Nat) (env : Env) (op : TopOp) (e : Event) (d d' : Driver)
      (t : List TraceEv),
      pushedEvent op = some e → d.actionGuard = true →
      runOp fuel env d op = some (d', t) →
      t = [] ∧ d'.queue = d.queue ++ [e] ∧ actionProcessing d' = true) ∧
    runOps 40 envC6 init [.appWrite 1 none, .appWrite 2 none] =
      some (⟨[.appWrite 2 none], .notError, true, true, false, false, none, false, 1, 0⟩,
        [.smCall (.processAppWrite 1)]) ∧
    runOps 40 envC6
        ⟨[.appWrite 2 none], .notError, true, true, false, false, none, false, 1, 0⟩
        [.resolvePromise [.a1]] =
      some (⟨[], .notError, true, false, false, false, none, false, 2, 1⟩,
        [.visit .a1, .smCall (.processAppWrite 2)]) :=
  ⟨fun _ _ _ _ _ _ _ hop hg hex => guard_push hop hg hex, by decide, by decide⟩

/-- Witness for C6: a push while a batch is in flight only enqueues. -/
theorem witness_C6 :
    ([] : List TraceEv) = [] ∧
    Driver.queue ⟨[Event.appWrite 9 none], .notError, true, true, false, false,
        none, false, 0, 0⟩ = [] ++ [Event.appWrite 9 none] ∧
    actionProcessing ⟨[Event.appWrite 9 none], .notError, true, true, false, false,
        none, false, 0, 0⟩ = true :=
  claim_C6.1 5 envAllEmpty (.appWrite 9 none) (.appWrite 9 none)
    ⟨[], .notError, true, true, false, false, none, false, 0, 0⟩
    ⟨[Event.appWrite 9 none], .notError, true, true, false, false, none, false, 0, 0⟩
    [] rfl rfl (by decide)

/-- C7: when the opaque state is mutated to `Error` without
`move_to_error_state`, the remaining actions of the current batch are still
visited, the dispatcher then invokes no further state-machine entry point, no
write callback is failed, and `in_error_state()` is true afterwards; pushes
made in that condition only enqueue and fail nothing. -/
theorem claim_C7 :
    (∀ (fuel : Nat) (env : Env) (op : TopOp) (e : Event) (d d' : Driver)
      (t : List TraceEv),
      pushedEvent op = some e → d.smState = .error → d.actionGuard = false →
      d.inPPE = false → d.externalError = false → d.destroyRequested = false →
      runOp fuel env d op = some (d', t) →
      t = [] ∧ d'.queue = d.queue ++ [e] ∧ inErrorState d' = true) ∧
    inErrorState init = false ∧
    runOps 40 envC7a init [.newTransportData] =
      some (⟨[], .error, false, false, false, false, none, false, 1, 1⟩,
        [.smCall .processSocketData, .visit .a1]) ∧
    inErrorState ⟨[], .error, false, false, false, false, none, false, 1, 1⟩ = true ∧
    runOps 40 envC7b init [.newTransportData] =
      some (⟨[], .error, false, false, false, false, none, false, 1, 2⟩,
        [.smCall .processSocketData, .visit .a1, .visit .a2]) ∧
    inErrorState ⟨[], .error, false, false, false, false, none, false, 1, 2⟩ = true :=
  ⟨fun _ _ _ _ _ _ _ hop hss hg hip hee hdr hex => err_push hop hss hg hip hee hdr hex,
   rfl, by decide, rfl, by decide, rfl⟩

/-- Witness for C7: a push in the state-machine-error condition only
enqueues. -/
theorem witness_C7 :
    ([] : List TraceEv) = [] ∧
    Driver.queue ⟨[Event.appClose], .error, true, false, false, false,
        none, false, 0, 0⟩ = [] ++ [Event.appClose] ∧
    inErrorState ⟨[Event.appClose], .error, true, false, false, false,
        none, false, 0, 0⟩ = true :=
  claim_C7.1 6 envAllEmpty .appClose .appClose
    ⟨[], .error, true, false, false, false, none, false, 0, 0⟩
    ⟨[Event.appClose], .error, true, false, false, false, none, false, 0, 0⟩
    [] rfl rfl rfl rfl rfl rfl (by decide)

/-- C8: a state machine returning empty batches for `TransportData` makes the
dispatcher call `process_socket_data` again and again until `wait_for_data()`
is requested — for every `n`, `n + 1` consecutive empty batches whose last
response requests `wait_for_data` produce exactly `n + 1` calls and a
quiescent driver (instantiated at 10 000 calls); and in TestReadNoActions an
empty batch is followed by a second call producing the non-empty batch. -/
theorem claim_C8 :
    (∀ n : Nat, runOps (n + 8) (envMany (n + 1)) init [.newTransportData] =
      some ({ init with smCalls := n + 1 },
        List.replicate (n + 1) (.smCall .processSocketData))) ∧
    runOps 10007 (envMany 10000) init [.newTransportData] =
      some ({ init with smCalls := 10000 },
        List.replicate 10000 (.smCall .processSocketData)) ∧
    runOps 40 envC8c init [.newTransportData] =
      some (⟨[], .notError, true, false, false, false, none, false, 2, 1⟩,
        [.smCall .processSocketData, .smCall .processSocketData, .visit .a1]) := by
  refine ⟨read_empty_run, ?_, by decide⟩
  exact read_empty_run 9999

end Fizz
